import Mathlib

/-!
Shallow embedding of the browser chat client of this repository: the
`VoiceChat` class (speech input/output wrapper) and the `ChatApp` class
(streaming conversation controller), both from `src/unnamed/part_000`.

JavaScript strings are modelled as `List Char` (UTF-16 code units; every
character appearing in this development lies in the Basic Multilingual
Plane, so code units coincide with characters).  DOM mutations and
platform side effects are modelled as explicit state fields and effect
lists.  All definitions are executable.
-/

namespace ChatClient

/-- The set of characters matched by the JavaScript regular-expression
class `\s` (also the set trimmed by `String.prototype.trim`). -/
def jsWhitespaceChars : List Char :=
  [' ', '\t', '\n', '\r', '\x0b', '\x0c',
   Char.ofNat 0xa0, Char.ofNat 0x1680,
   Char.ofNat 0x2000, Char.ofNat 0x2001, Char.ofNat 0x2002, Char.ofNat 0x2003,
   Char.ofNat 0x2004, Char.ofNat 0x2005, Char.ofNat 0x2006, Char.ofNat 0x2007,
   Char.ofNat 0x2008, Char.ofNat 0x2009, Char.ofNat 0x200a,
   Char.ofNat 0x2028, Char.ofNat 0x2029, Char.ofNat 0x202f, Char.ofNat 0x205f,
   Char.ofNat 0x3000, Char.ofNat 0xfeff]

/-- Whether a character is JavaScript `\s` whitespace. -/
def jsIsSpace (c : Char) : Bool := jsWhitespaceChars.contains c

/-- JavaScript `String.prototype.trim` (`messageInput.value.trim()` in
`ChatApp.sendMessage`). -/
def jsTrim (s : List Char) : List Char :=
  ((s.dropWhile jsIsSpace).reverse.dropWhile jsIsSpace).reverse

/-! ## Newline splitting

`ChatApp.sendMessage` reads the response body chunk by chunk and runs

  buffer += decoder.decode(value, \x7b stream: true \x7d);
  const lines = buffer.split('\n');
  buffer = lines.pop() || '';

`splitLines` is JavaScript `String.prototype.split('\n')`: it always
returns at least one element, `"".split('\n')` is `[""]`, and a trailing
newline contributes a final empty element. -/

/-- JavaScript `s.split('\n')` on a `List Char` model of `s`. -/
def splitLines : List Char → List (List Char)
  | [] => [[]]
  | c :: cs =>
    let r := splitLines cs
    if c = '\n' then [] :: r
    else (c :: r.headD []) :: r.tail

/-- Rebuild a string from complete lines plus the pending partial line. -/
def joinedLines (ls : List (List Char)) (pend : List Char) : List Char :=
  (ls.map (fun l => l ++ ['\n'])).flatten ++ pend

/-- Interleave the split lines with the newlines they were split at. -/
def joinAll : List (List Char) → List Char
  | [] => []
  | [l] => l
  | l :: ls => l ++ '\n' :: joinAll ls

/-! ## The read loop of `ChatApp.sendMessage`

`feedStep` is one iteration of the body of `while (true)` on one decoded
chunk: it returns the complete lines handed to the `for (const line of
lines)` loop together with the new value of `buffer`.  `feedMany` folds
it over a sequence of chunks starting from a given buffer. -/

/-- One iteration of the read loop on one chunk. -/
def feedStep (buf chunk : List Char) : List (List Char) × List Char :=
  let pieces := splitLines (buf ++ chunk)
  (pieces.dropLast, pieces.getLastD [])

/-- The read loop over a whole sequence of chunks: all complete lines
produced, in order, and the final buffer. -/
def feedMany (buf : List Char) : List (List Char) → List (List Char) × List Char
  | [] => ([], buf)
  | ch :: chs =>
    let fst := feedStep buf ch
    let rest := feedMany fst.2 chs
    (fst.1 ++ rest.1, rest.2)

/-! ## Language classifier (`ChatApp.detectLanguageFromText`)

The source is

  const devanagariRegex = /[ऀ-ॿ]/;
  const devanagariCount = (text.match(devanagariRegex) || []).length;
  const totalChars = text.replace(/\s/g, '').length;
  ...

Note that the regular expression has no `g` flag, so `text.match` returns
either `null` (length `0` via `|| []`) or a match array of length `1`:
`devanagariCount` is `0` or `1`, never the number of Devanagari
characters.  The embedding reproduces this faithfully.  The comparison
`devanagariRatio > 0.3` is modelled by the exact rational comparison
`10 * count > 3 * total`, which agrees with the IEEE-double comparison for
every value that can arise here. -/

/-- Whether a character lies in the Devanagari Unicode block. -/
def isDevanagari (c : Char) : Bool :=
  0x900 ≤ c.toNat && c.toNat ≤ 0x97F

/-- Faithful embedding of `ChatApp.detectLanguageFromText`. -/
def detectLanguageFromText (text : List Char) : List Char :=
  let devanagariCount : Nat := if text.any isDevanagari then 1 else 0
  let totalChars := (text.filter (fun c => !jsIsSpace c)).length
  if totalChars = 0 then "en".toList
  else if devanagariCount = 0 then "en".toList
  else if 10 * devanagariCount > 3 * totalChars then "hi".toList
  else "en".toList

/-- Modelled from the spec: the classifier algorithm of section 4.2, which
counts ALL characters falling in the Devanagari block ("count characters
falling in the Devanagari Unicode block"), unlike the source, whose
match-without-global-flag counts at most one. -/
def classifySpec (text : List Char) : List Char :=
  let devanagariCount := (text.filter isDevanagari).length
  let totalChars := (text.filter (fun c => !jsIsSpace c)).length
  if totalChars = 0 then "en".toList
  else if devanagariCount = 0 then "en".toList
  else if 10 * devanagariCount > 3 * totalChars then "hi".toList
  else "en".toList

/-! ## The `VoiceChat` class

State fields of the class that the claims depend on, plus the platform
side effects of one call, modelled as an explicit effect list. -/

/-- A platform speech-synthesis voice (only its BCP-47 tag matters). -/
structure Voice where
  lang : List Char
deriving DecidableEq, Repr

/-- Observable platform calls of the speech-recognition wrapper. -/
inductive RecEffect where
  | startSession
  | stopSession
deriving DecidableEq, Repr

/-- Observable platform calls of the speech-synthesis wrapper. -/
inductive SynthEffect where
  | cancel
  | speakStart (text : List Char) (lang : List Char)
deriving DecidableEq, Repr

/-- The mutable fields of a `VoiceChat` instance.  `recognitionPresent`
models `this.recognition !== null` (browser support), `synthesisPresent`
models `this.synthesis`, and `voices` models `this.voices`, which is
`undefined` (`none`) before `loadVoices` ran. -/
structure VoiceState where
  recognitionPresent : Bool
  isRecording : Bool
  voices : Option (List Voice)
  voiceOutputEnabled : Bool
  synthesisPresent : Bool
  currentUtterance : Option (List Char)
  voiceLanguage : List Char
  voiceStatus : Option (List Char × List Char)
deriving DecidableEq, Repr

/-- `VoiceChat.showVoiceStatus`: an empty message hides the status bar. -/
def showVoiceStatus (st : VoiceState) (msg ty : List Char) : VoiceState :=
  if msg.isEmpty then { st with voiceStatus := none }
  else { st with voiceStatus := some (msg, ty) }

/-- `VoiceChat.stopRecording`: calls `recognition.stop()` only when a
recognizer exists and a session is active.  (`isRecording` itself is
cleared later by the asynchronous `onend` platform callback.) -/
def stopRecording (st : VoiceState) : VoiceState × List RecEffect :=
  if st.recognitionPresent && st.isRecording then (st, [RecEffect.stopSession])
  else (st, [])

/-- `VoiceChat.startRecording`.  The `try` around `recognition.start()` is
modelled as the successful branch; the `catch` only changes the status
message and starts nothing. -/
def startRecording (st : VoiceState) : VoiceState × List RecEffect :=
  if !st.recognitionPresent then
    (showVoiceStatus st "Speech recognition not supported in this browser".toList "error".toList, [])
  else if st.isRecording then
    stopRecording st
  else
    (showVoiceStatus st "Listening...".toList "listening".toList, [RecEffect.startSession])

/-- JavaScript `String.prototype.includes`: contiguous-substring test. -/
def jsIncludes (hay needle : List Char) : Bool :=
  (List.range (hay.length + 1)).any (fun i => needle.isPrefixOf (hay.drop i))

/-- `VoiceChat.getVoiceForLanguage`, including both fallbacks
(`includes` probe, then `voices[0]`). -/
def getVoiceForLanguage (st : VoiceState) (language : List Char) : Option Voice :=
  match st.voices with
  | none => none
  | some vs =>
    if vs.isEmpty then none
    else
      let langCode := if language = "hi".toList then "hi-IN".toList else "en-US".toList
      let langPref := if language = "hi".toList then "hi".toList else "en".toList
      match vs.find? (fun v => langCode.isPrefixOf v.lang || langPref.isPrefixOf v.lang) with
      | some v => some v
      | none =>
        match vs.find? (fun v => jsIncludes v.lang langPref) with
        | some v => some v
        | none => vs.head?

/-- JavaScript `language || this.voiceLanguage` from `VoiceChat.speak`
(`null`, `undefined` and the empty string are falsy). -/
def resolveLang (st : VoiceState) (language : Option (List Char)) : List Char :=
  match language with
  | some l => if l.isEmpty then st.voiceLanguage else l
  | none => st.voiceLanguage

/-- `VoiceChat.speak`.  The utterance callbacks (`onend`, `onerror`) are
asynchronous and not part of the synchronous call being modelled. -/
def speak (st : VoiceState) (text : List Char) (language : Option (List Char)) :
    VoiceState × List SynthEffect :=
  if !st.voiceOutputEnabled || !st.synthesisPresent then (st, [])
  else
    let cancelEffects := if st.currentUtterance.isSome then [SynthEffect.cancel] else []
    let lang := resolveLang st language
    match getVoiceForLanguage st lang with
    | none => (st, cancelEffects)
    | some _ =>
      ({ st with currentUtterance := some text },
        cancelEffects ++ [SynthEffect.speakStart text lang])

/-! ## JSON frames

`ChatApp.sendMessage` runs `JSON.parse(line.slice(6))` on each complete
`data: `-prefixed line and hands the resulting object to
`handleStreamEvent`.  `JSON.parse` is a platform builtin; the backend
serializer is not under `src/`.  Modelled from the spec: the wire framing
of section 6 — each meaningful line carries a JSON record of shape
`\x7b"type":"token","content":string\x7d` or
`\x7b"type":"status","state":...,"metrics"?:\x7b"latency":number\x7d,
"message"?:string\x7d`.  `jsonParse` below is a standard recursive-descent
parser for JSON objects, strings, numbers and literals (numbers are kept
as lexemes — no floating-point semantics is needed by any claim; `\uXXXX`
string escapes and arrays do not occur on this wire and are rejected). -/

/-- A parsed JSON value. -/
inductive JValue where
  | str (s : List Char)
  | num (lexeme : List Char)
  | obj (fields : List (List Char × JValue))
  | jtrue
  | jfalse
  | jnull

/-- JSON insignificant whitespace. -/
def jsonWs (c : Char) : Bool :=
  c = ' ' || c = '\t' || c = '\n' || c = '\r'

def skipWs : List Char → List Char
  | [] => []
  | c :: cs => if jsonWs c then skipWs cs else c :: cs

/-- Decode one character escape inside a JSON string. -/
def decodeEscape (c : Char) : Option Char :=
  if c = '"' then some '"'
  else if c = '\\' then some '\\'
  else if c = '/' then some '/'
  else if c = 'n' then some '\n'
  else if c = 't' then some '\t'
  else if c = 'r' then some '\r'
  else if c = 'b' then some '\x08'
  else if c = 'f' then some '\x0c'
  else none

/-- Parse the body of a JSON string (the opening quote already consumed);
returns the decoded text and the rest of the input. -/
def parseJsonString : List Char → Option (List Char × List Char)
  | [] => none
  | c :: cs =>
    if c = '"' then some ([], cs)
    else if c = '\\' then
      match cs with
      | [] => none
      | e :: cs' =>
        match decodeEscape e with
        | none => none
        | some d =>
          match parseJsonString cs' with
          | none => none
          | some (s, r) => some (d :: s, r)
    else
      match parseJsonString cs with
      | none => none
      | some (s, r) => some (c :: s, r)

/-- Characters that may appear in a JSON number lexeme. -/
def numChar (c : Char) : Bool :=
  c.isDigit || c = '-' || c = '+' || c = '.' || c = 'e' || c = 'E'

/-- Parse a JSON number as its lexeme. -/
def parseNumber (s : List Char) : Option (List Char × List Char) :=
  let lex := s.takeWhile numChar
  if lex.isEmpty then none else some (lex, s.drop lex.length)

mutual

/-- Parse one JSON value. -/
def parseValue : Nat → List Char → Option (JValue × List Char)
  | 0, _ => none
  | fuel + 1, s =>
    match skipWs s with
    | [] => none
    | c :: cs =>
      if c = '"' then
        match parseJsonString cs with
        | some (str, r) => some (JValue.str str, r)
        | none => none
      else if c = '\x7b' then
        match skipWs cs with
        | '\x7d' :: r => some (JValue.obj [], r)
        | rest =>
          match parseFields fuel rest with
          | some (fs, r) => some (JValue.obj fs, r)
          | none => none
      else if c.isDigit || c = '-' then
        match parseNumber (c :: cs) with
        | some (lex, r) => some (JValue.num lex, r)
        | none => none
      else if "true".toList.isPrefixOf (c :: cs) then
        some (JValue.jtrue, (c :: cs).drop 4)
      else if "false".toList.isPrefixOf (c :: cs) then
        some (JValue.jfalse, (c :: cs).drop 5)
      else if "null".toList.isPrefixOf (c :: cs) then
        some (JValue.jnull, (c :: cs).drop 4)
      else none

/-- Parse a nonempty `"key": value` list, up to and including the
closing brace. -/
def parseFields : Nat → List Char → Option (List (List Char × JValue) × List Char)
  | 0, _ => none
  | fuel + 1, s =>
    match skipWs s with
    | '"' :: cs =>
      match parseJsonString cs with
      | some (key, r1) =>
        match skipWs r1 with
        | ':' :: r2 =>
          match parseValue fuel r2 with
          | some (v, r3) =>
            match skipWs r3 with
            | ',' :: r4 =>
              match parseFields fuel r4 with
              | some (fs, r5) => some ((key, v) :: fs, r5)
              | none => none
            | '\x7d' :: r4 => some ([(key, v)], r4)
            | _ => none
          | none => none
        | _ => none
      | none => none
    | _ => none

end

/-- `JSON.parse`: parse a complete JSON document, rejecting trailing
garbage. -/
def jsonParse (s : List Char) : Option JValue :=
  match parseValue (s.length + 1) s with
  | some (v, r) => if (skipWs r).isEmpty then some v else none
  | none => none

/-- JavaScript property read `obj.key` on a parsed JSON value (`none` is
`undefined`).  Objects produced by `JSON.parse` on this wire have no
duplicate keys, so first-match lookup is adequate. -/
def jGet (v : JValue) (key : List Char) : Option JValue :=
  match v with
  | JValue.obj fields => (fields.find? (fun kv => kv.1 = key)).map (fun kv => kv.2)
  | _ => none

/-- JavaScript string coercion as used by `+=` and template literals
(`undefined` prints as "undefined"; number lexemes are kept verbatim). -/
def jsToString : Option JValue → List Char
  | some (JValue.str s) => s
  | some (JValue.num lex) => lex
  | some JValue.jtrue => "true".toList
  | some JValue.jfalse => "false".toList
  | some JValue.jnull => "null".toList
  | some (JValue.obj _) => "[object Object]".toList
  | none => "undefined".toList

/-- JavaScript truthiness of a possibly-absent parsed value, as used by
`if (event.metrics)`. -/
def jsTruthy : Option JValue → Bool
  | none => false
  | some JValue.jnull => false
  | some JValue.jfalse => false
  | some (JValue.str s) => !s.isEmpty
  | some (JValue.num lex) => !(lex = "0".toList)
  | some _ => true

/-! ## The `ChatApp` class

The observable state of one `ChatApp` instance: the fields of the class
(`currentMessage`, `isStreaming`), the DOM the class mutates (message
list, the current turn's streaming element, the avatar state plus its
history, the latency readout), and the calls it makes into collaborators
(`fetch` count, `voiceChat.speak` invocations, pending `setTimeout`
idle-reset timers).  `assistantContent` is the `textContent` of the
assistant element created for the most recent turn; elements of earlier
turns stay in the DOM and are not tracked further. -/

/-- The strings passed to `ChatApp.setAvatarState`. -/
inductive AvatarState where
  | idle
  | thinking
  | streaming
  | speaking
  | error
deriving DecidableEq, Repr

/-- Observable state of a `ChatApp` instance. -/
structure AppState where
  currentMessage : List Char
  isStreaming : Bool
  avatar : AvatarState
  trace : List AvatarState
  messages : List (List Char × List Char)
  assistantContent : List Char
  speakCalls : List (List Char × List Char)
  latencyDisplay : Option (List Char)
  requestsIssued : Nat
  pendingIdleTimers : Nat
  voiceChatPresent : Bool
deriving DecidableEq, Repr

/-- `ChatApp.setAvatarState`, also recording the state in a history so
that "passes through" properties can be stated. -/
def setAvatarState (st : AppState) (s : AvatarState) : AppState :=
  { st with avatar := s, trace := st.trace ++ [s] }

/-- `ChatApp.addMessage` (a `(content, role)` pair appended to the
messages container). -/
def addMessage (st : AppState) (content role : List Char) : AppState :=
  { st with messages := st.messages ++ [(content, role)] }

/-- `ChatApp.handleStreamEvent`.  The `switch` compares `event.type`
(and then `event.state`) against string literals, so a missing or
non-string field matches no case.  The `toFixed(2)` display formatting of
the latency number is modelled by the number's lexeme; the 2-second
`setTimeout` that re-sets the avatar to idle is recorded in
`pendingIdleTimers` (it fires after the turn, whose `finally` block has
already set the avatar to idle). -/
def handleStreamEvent (st : AppState) (event : JValue) : AppState :=
  match jGet event "type".toList with
  | some (JValue.str ty) =>
    if ty = "token".toList then
      let newMsg := st.currentMessage ++ jsToString (jGet event "content".toList)
      let st := { st with currentMessage := newMsg, assistantContent := newMsg }
      setAvatarState st AvatarState.streaming
    else if ty = "status".toList then
      match jGet event "state".toList with
      | some (JValue.str stv) =>
        if stv = "thinking".toList then
          setAvatarState st AvatarState.thinking
        else if stv = "complete".toList then
          let st := setAvatarState st AvatarState.speaking
          let lat := jsToString ((jGet event "metrics".toList).bind
            (fun m => jGet m "latency".toList)) ++ "s".toList
          let st :=
            if jsTruthy (jGet event "metrics".toList) then
              { st with latencyDisplay := some lat }
            else st
          let st :=
            if st.voiceChatPresent && !st.currentMessage.isEmpty then
              { st with speakCalls := st.speakCalls ++
                  [(st.currentMessage, detectLanguageFromText st.currentMessage)] }
            else st
          { st with pendingIdleTimers := st.pendingIdleTimers + 1 }
        else if stv = "error".toList then
          let annotated := st.currentMessage ++ "\n\n[Error: ".toList ++
            jsToString (jGet event "message".toList) ++ "]".toList
          let st := setAvatarState st AvatarState.error
          { st with assistantContent := annotated }
        else st
      | _ => st
    else st
  | _ => st

/-- The `data: ` event marker of the SSE wire format. -/
def dataMarker : List Char := "data: ".toList

/-- The body of `for (const line of lines)` on one complete line:
`none` models the `JSON.parse` exception on a malformed record. -/
def processLine (st : AppState) (line : List Char) : Option AppState :=
  if dataMarker.isPrefixOf line then
    match jsonParse (line.drop 6) with
    | none => none
    | some ev => some (handleStreamEvent st ev)
  else some st

/-- The line loop over the complete lines of one chunk; `Except.error`
carries the state at the moment the exception escaped. -/
def processLines : AppState → List (List Char) → Except AppState AppState
  | st, [] => Except.ok st
  | st, l :: ls =>
    match processLine st l with
    | none => Except.error st
    | some st' => processLines st' ls

/-- The `while (true)` read loop of `ChatApp.sendMessage` over the
decoded chunks of the response body. -/
def runChunks : AppState → List Char → List (List Char) → Except AppState AppState
  | st, _, [] => Except.ok st
  | st, buf, ch :: chs =>
    let pieces := splitLines (buf ++ ch)
    match processLines st pieces.dropLast with
    | Except.error st' => Except.error st'
    | Except.ok st' => runChunks st' (pieces.getLastD []) chs

/-- The response to the `fetch('/api/chat', ...)` call of one turn:
either a non-ok HTTP status (which throws) or a stream of decoded
chunks. -/
inductive TurnResponse where
  | httpError
  | stream (chunks : List (List Char))

/-- The `catch` block of `ChatApp.sendMessage`. -/
def catchClause (st : AppState) : AppState :=
  setAvatarState
    (addMessage st "Error: Failed to send message. Please try again.".toList "assistant".toList)
    AvatarState.error

/-- The `finally` block of `ChatApp.sendMessage`. -/
def finallyClause (st : AppState) : AppState :=
  setAvatarState { st with isStreaming := false } AvatarState.idle

/-- `ChatApp.sendMessage`: guard, user-message rendering, turn set-up,
request, read loop, `catch` and `finally`. -/
def sendMessage (st : AppState) (input : List Char) (resp : TurnResponse) : AppState :=
  let message := jsTrim input
  if message.isEmpty || st.isStreaming then st
  else
    let st := addMessage st message "user".toList
    let st := { st with isStreaming := true, currentMessage := [] }
    let st := setAvatarState st AvatarState.thinking
    let st := { st with assistantContent := [], requestsIssued := st.requestsIssued + 1 }
    match resp with
    | TurnResponse.httpError => finallyClause (catchClause st)
    | TurnResponse.stream chunks =>
      match runChunks st [] chunks with
      | Except.ok st' => finallyClause st'
      | Except.error st' => finallyClause (catchClause st')

/-- A fresh `ChatApp` as built by `init` (voice chat available, nothing
rendered, idle). -/
def initialAppState : AppState :=
  { currentMessage := []
    isStreaming := false
    avatar := AvatarState.idle
    trace := []
    messages := []
    assistantContent := []
    speakCalls := []
    latencyDisplay := none
    requestsIssued := 0
    pendingIdleTimers := 0
    voiceChatPresent := true }

/-- The frame decoding applied to a complete line: lines without the
`data: ` marker are dropped (`none`); marker lines carry the result of
`JSON.parse` on the payload. -/
def decodeLine (line : List Char) : Option (Option JValue) :=
  if dataMarker.isPrefixOf line then some (jsonParse (line.drop 6)) else none

/-- The ordered frame sequence decoded from a list of complete lines. -/
def decodedFrames (lines : List (List Char)) : List (Option JValue) :=
  lines.filterMap decodeLine

/-! ## Concrete streams and states used by the claims -/

/-- The wire chunk of the happy-path scenario: `token("Hi")`,
`token(" there")`, `status(complete, latency=0.42)`. -/
def c4Chunk : List Char :=
  ("data: \x7b\x22type\x22: \x22token\x22, \x22content\x22: \x22Hi\x22\x7d\n"
   ++ "data: \x7b\x22type\x22: \x22token\x22, \x22content\x22: \x22 there\x22\x7d\n"
   ++ "data: \x7b\x22type\x22: \x22status\x22, \x22state\x22: \x22complete\x22, \x22metrics\x22: \x7b\x22latency\x22: 0.42\x7d\x7d\n").toList

/-- A stream whose second frame line carries a malformed record; a third
well-formed line follows it. -/
def c5Chunk : List Char :=
  ("data: \x7b\x22type\x22: \x22token\x22, \x22content\x22: \x22Hi\x22\x7d\n"
   ++ "data: \x7bmalformed\n"
   ++ "data: \x7b\x22type\x22: \x22token\x22, \x22content\x22: \x22 later\x22\x7d\n").toList

/-- A well-formed follow-up stream for the turn after the malformed one. -/
def c5GoodChunk : List Char :=
  ("data: \x7b\x22type\x22: \x22token\x22, \x22content\x22: \x22Ok\x22\x7d\n"
   ++ "data: \x7b\x22type\x22: \x22status\x22, \x22state\x22: \x22complete\x22\x7d\n").toList

/-- The turn that hits the malformed frame. -/
def c5FirstTurn : AppState :=
  sendMessage initialAppState "Hello".toList (TurnResponse.stream [c5Chunk])

/-- The next turn, submitted after the aborted one. -/
def c5SecondTurn : AppState :=
  sendMessage c5FirstTurn "Again".toList (TurnResponse.stream [c5GoodChunk])

/-- A `status(complete)` frame, with latency metrics when `metrics` is
`some lexeme`. -/
def completeFrame (metrics : Option (List Char)) : JValue :=
  JValue.obj
    ([("type".toList, JValue.str "status".toList),
      ("state".toList, JValue.str "complete".toList)] ++
      (match metrics with
       | some lex => [("metrics".toList, JValue.obj [("latency".toList, JValue.num lex)])]
       | none => []))

/-- An app state in the middle of a turn (used as a witness). -/
def streamingState : AppState :=
  { initialAppState with isStreaming := true, avatar := AvatarState.streaming }

/-- A `VoiceChat` instance with an active recognition session. -/
def recordingState : VoiceState :=
  { recognitionPresent := true
    isRecording := true
    voices := none
    voiceOutputEnabled := true
    synthesisPresent := true
    currentUtterance := none
    voiceLanguage := "en".toList
    voiceStatus := none }

/-- A `VoiceChat` instance with voice output disabled and no voice list
loaded. -/
def mutedVoiceState : VoiceState :=
  { recordingState with isRecording := false, voiceOutputEnabled := false }

/-! ## Theorems -/

theorem splitLines_ne_nil (s : List Char) : splitLines s ≠ [] := by
  cases s with
  | nil => simp [splitLines]
  | cons c cs =>
    simp only [splitLines]
    split <;> simp

/-- Helper: dropping the last element distributes over an append whose
second part is nonempty. -/
theorem dropLast_append_cons {α : Type} (l₁ : List α) (a : α) (l₂ : List α) :
    (l₁ ++ a :: l₂).dropLast = l₁ ++ (a :: l₂).dropLast := by
  induction l₁ with
  | nil => rfl
  | cons b t ih =>
    cases h : t ++ a :: l₂ with
    | nil => exact absurd h (by simp)
    | cons x xs =>
      simp only [List.cons_append, h, List.dropLast_cons₂]
      rw [← h, ih]

/-- Helper: `getLastD` looks only at the nonempty tail of an append. -/
theorem getLastD_append_cons {α : Type} (l₁ : List α) (a : α) (l₂ : List α) (d : α) :
    (l₁ ++ a :: l₂).getLastD d = (a :: l₂).getLastD d := by
  rw [List.getLastD_eq_getLast?, List.getLastD_eq_getLast?, List.getLast?_append_cons]

/-- Helper: the default of `getLastD` is irrelevant on a nonempty list. -/
theorem getLastD_irrel {α : Type} {l : List α} (h : l ≠ []) (d d' : α) :
    l.getLastD d = l.getLastD d' := by
  cases l with
  | nil => exact absurd rfl h
  | cons a t =>
    rw [List.getLastD_eq_getLast?, List.getLastD_eq_getLast?,
      List.getLast?_eq_getLast_of_ne_nil (by simp)]
    rfl

theorem splitLines_cons_newline (cs : List Char) :
    splitLines ('\n' :: cs) = [] :: splitLines cs := by
  simp [splitLines]

theorem splitLines_cons_other {c : Char} (hc : c ≠ '\n') (cs : List Char) :
    splitLines (c :: cs) = (c :: (splitLines cs).headD []) :: (splitLines cs).tail := by
  simp [splitLines, hc]

/-- How `split('\n')` decomposes over string concatenation: the complete
lines of `a`, then the line straddling the boundary, then the lines of `b`. -/
theorem splitLines_append (a b : List Char) :
    splitLines (a ++ b) =
      (splitLines a).dropLast ++
        ((splitLines a).getLastD [] ++ (splitLines b).headD []) :: (splitLines b).tail := by
  induction a with
  | nil =>
    obtain ⟨l, ls, hb⟩ : ∃ l ls, splitLines b = l :: ls := by
      cases h : splitLines b with
      | nil => exact absurd h (splitLines_ne_nil b)
      | cons l ls => exact ⟨l, ls, rfl⟩
    simp [splitLines, hb]
  | cons c cs ih =>
    obtain ⟨l, ls, hr⟩ : ∃ l ls, splitLines cs = l :: ls := by
      cases h : splitLines cs with
      | nil => exact absurd h (splitLines_ne_nil cs)
      | cons l ls => exact ⟨l, ls, rfl⟩
    by_cases hc : c = '\n'
    · subst hc
      rw [List.cons_append, splitLines_cons_newline, splitLines_cons_newline, ih, hr]
      simp [List.dropLast_cons₂, List.getLastD_cons]
    · rw [List.cons_append, splitLines_cons_other hc, splitLines_cons_other hc, ih, hr]
      cases ls with
      | nil => simp
      | cons x xs =>
        simp [List.dropLast_cons₂, List.getLastD_cons]

/-- The element `buffer = lines.pop() || ''` never contains a newline. -/
theorem splitLines_getLastD_no_newline (s : List Char) :
    '\n' ∉ (splitLines s).getLastD [] := by
  induction s with
  | nil => simp [splitLines]
  | cons c cs ih =>
    obtain ⟨l, ls, hr⟩ : ∃ l ls, splitLines cs = l :: ls := by
      cases h : splitLines cs with
      | nil => exact absurd h (splitLines_ne_nil cs)
      | cons l ls => exact ⟨l, ls, rfl⟩
    rw [hr] at ih
    by_cases hc : c = '\n'
    · subst hc
      rw [splitLines_cons_newline, hr, List.getLastD_cons]
      exact ih
    · rw [splitLines_cons_other hc, hr, List.headD_cons, List.tail_cons]
      cases ls with
      | nil =>
        simp only [List.getLastD_cons, List.getLastD_nil] at ih ⊢
        intro hmem
        rcases List.mem_cons.mp hmem with h | h
        · exact hc h.symm
        · exact ih h
      | cons x xs =>
        simpa [List.getLastD_cons] using ih

/-- A newline-free string splits into the single line consisting of itself. -/
theorem splitLines_no_newline {s : List Char} (h : '\n' ∉ s) : splitLines s = [s] := by
  induction s with
  | nil => rfl
  | cons c cs ih =>
    have hc : c ≠ '\n' := fun hcc => h (hcc ▸ List.mem_cons_self c cs)
    have hcs : '\n' ∉ cs := fun hm => h (List.mem_cons_of_mem c hm)
    rw [splitLines_cons_other hc, ih hcs]
    rfl

theorem joinAll_cons_cons (l x : List Char) (xs : List (List Char)) :
    joinAll (l :: x :: xs) = l ++ '\n' :: joinAll (x :: xs) := by
  rfl

theorem joinAll_splitLines (s : List Char) : joinAll (splitLines s) = s := by
  induction s with
  | nil => rfl
  | cons c cs ih =>
    obtain ⟨l, ls, hr⟩ : ∃ l ls, splitLines cs = l :: ls := by
      cases h : splitLines cs with
      | nil => exact absurd h (splitLines_ne_nil cs)
      | cons l ls => exact ⟨l, ls, rfl⟩
    rw [hr] at ih
    by_cases hc : c = '\n'
    · subst hc
      rw [splitLines_cons_newline, hr, joinAll_cons_cons, List.nil_append, ih]
    · rw [splitLines_cons_other hc, hr, List.headD_cons, List.tail_cons]
      cases ls with
      | nil =>
        show c :: l = c :: cs
        rw [show joinAll [l] = l from rfl] at ih
        rw [ih]
      | cons x xs =>
        rw [joinAll_cons_cons] at *
        rw [List.cons_append, ih]

theorem joinedLines_eq_joinAll (l : List Char) (ls : List (List Char)) :
    joinedLines ((l :: ls).dropLast) ((l :: ls).getLastD []) = joinAll (l :: ls) := by
  induction ls generalizing l with
  | nil => simp [joinedLines, joinAll, List.getLastD_cons]
  | cons x xs ih =>
    rw [List.dropLast_cons₂, List.getLastD_cons, joinAll_cons_cons]
    have step : joinedLines (l :: (x :: xs).dropLast) ((x :: xs).getLastD l) =
        l ++ '\n' :: joinedLines ((x :: xs).dropLast) ((x :: xs).getLastD l) := by
      simp [joinedLines]
    rw [step, getLastD_irrel (l := x :: xs) (by simp) l [], ih x]

/-- Splitting loses nothing: the complete lines, each with its newline,
followed by the pending buffer, reconstruct the input. -/
theorem joinedLines_splitLines (s : List Char) :
    joinedLines (splitLines s).dropLast ((splitLines s).getLastD []) = s := by
  obtain ⟨l, ls, hr⟩ : ∃ l ls, splitLines s = l :: ls := by
    cases h : splitLines s with
    | nil => exact absurd h (splitLines_ne_nil s)
    | cons l ls => exact ⟨l, ls, rfl⟩
  rw [hr, joinedLines_eq_joinAll, ← hr, joinAll_splitLines]

theorem feedStep_buffer_no_newline (buf chunk : List Char) :
    '\n' ∉ (feedStep buf chunk).2 :=
  splitLines_getLastD_no_newline (buf ++ chunk)

/-- One loop iteration on a concatenated chunk equals two successive
iterations: the complete lines concatenate and the buffers thread through. -/
theorem feedStep_append (buf c d : List Char) :
    feedStep buf (c ++ d) =
      ((feedStep buf c).1 ++ (feedStep (feedStep buf c).2 d).1,
        (feedStep (feedStep buf c).2 d).2) := by
  have hb1 : '\n' ∉ (feedStep buf c).2 := feedStep_buffer_no_newline buf c
  have hsingle : splitLines (feedStep buf c).2 = [(feedStep buf c).2] :=
    splitLines_no_newline hb1
  have h2 : splitLines ((feedStep buf c).2 ++ d) =
      ((feedStep buf c).2 ++ (splitLines d).headD []) :: (splitLines d).tail := by
    rw [splitLines_append, hsingle]
    rfl
  have h1 : splitLines (buf ++ (c ++ d)) =
      (splitLines (buf ++ c)).dropLast ++
        ((feedStep buf c).2 ++ (splitLines d).headD []) :: (splitLines d).tail := by
    rw [← List.append_assoc, splitLines_append]
    rfl
  have hfst : (feedStep buf (c ++ d)).1 =
      (feedStep buf c).1 ++ (feedStep (feedStep buf c).2 d).1 := by
    show (splitLines (buf ++ (c ++ d))).dropLast = _
    rw [h1, dropLast_append_cons]
    show _ = (splitLines (buf ++ c)).dropLast ++ (splitLines ((feedStep buf c).2 ++ d)).dropLast
    rw [h2]
  have hsnd : (feedStep buf (c ++ d)).2 = (feedStep (feedStep buf c).2 d).2 := by
    show (splitLines (buf ++ (c ++ d))).getLastD [] = _
    rw [h1, getLastD_append_cons]
    show _ = (splitLines ((feedStep buf c).2 ++ d)).getLastD []
    rw [h2]
  exact Prod.ext hfst hsnd

/-- Chunk-split invariance of the read loop: starting from a newline-free
buffer, feeding the chunks one by one produces exactly the complete lines
and final buffer obtained by feeding their concatenation in one piece. -/
theorem feedMany_eq_feedStep {buf : List Char} (h : '\n' ∉ buf) :
    ∀ chunks : List (List Char), feedMany buf chunks = feedStep buf chunks.flatten := by
  intro chunks
  induction chunks generalizing buf with
  | nil =>
    simp [feedMany, List.flatten_nil, feedStep, splitLines_no_newline h]
  | cons ch chs ih =>
    have hbuf' : '\n' ∉ (feedStep buf ch).2 := feedStep_buffer_no_newline buf ch
    simp only [feedMany, List.flatten_cons, ih hbuf',
      feedStep_append buf ch chs.flatten]

/-! ## Helper lemmas about the stream loop -/

theorem processLines_append (st : AppState) (a b : List (List Char)) :
    processLines st (a ++ b) =
      match processLines st a with
      | Except.ok st' => processLines st' b
      | Except.error e => Except.error e := by
  induction a generalizing st with
  | nil => rfl
  | cons l ls ih =>
    simp only [List.cons_append, processLines]
    cases processLine st l with
    | none => rfl
    | some st' => exact ih st'

/-- The read loop is the line loop applied to the lines accumulated by
`feedMany`. -/
theorem runChunks_eq_processLines (st : AppState) {buf : List Char} (h : '\n' ∉ buf)
    (chunks : List (List Char)) :
    runChunks st buf chunks = processLines st (feedMany buf chunks).1 := by
  induction chunks generalizing st buf with
  | nil => rfl
  | cons ch chs ih =>
    have hfst : (feedStep buf ch).1 = (splitLines (buf ++ ch)).dropLast := rfl
    have hsnd : (feedStep buf ch).2 = (splitLines (buf ++ ch)).getLastD [] := rfl
    simp only [runChunks, feedMany, processLines_append, hfst, hsnd]
    cases hpl : processLines st (splitLines (buf ++ ch)).dropLast with
    | error e => rfl
    | ok st' =>
      exact ih st' (hsnd ▸ feedStep_buffer_no_newline buf ch)

/-! ## Claim theorems -/

/-- Claim C1.  The classifier of `ChatApp.detectLanguageFromText` does NOT
satisfy the spec's test vectors: because its regular expression lacks the
`g` flag, `devanagariCount` is at most `1`, so the code returns `en` on
"नमस्ते दुनिया" where both the spec's algorithm (`classifySpec`, which counts
all Devanagari characters) and its test vector require `hi`.  The
remaining vectors (`"Hello world" ↦ en`, `"" ↦ en`, exact-30%-ratio ↦ en
with a strict threshold) hold for both versions. -/
theorem detectLanguage_missing_global_flag :
    detectLanguageFromText "नमस्ते दुनिया".toList = "en".toList ∧
    classifySpec "नमस्ते दुनिया".toList = "hi".toList ∧
    detectLanguageFromText "Hello world".toList = "en".toList ∧
    detectLanguageFromText "".toList = "en".toList ∧
    classifySpec "Hello world".toList = "en".toList ∧
    classifySpec "".toList = "en".toList ∧
    classifySpec ("नमस".toList ++ "abcdefg".toList) = "en".toList ∧
    detectLanguageFromText ("नमस".toList ++ "abcdefg".toList) = "en".toList := by
  decide

/-- Claim C2.  Feeding any chunk split of a stream through the read
loop's buffer yields the same ordered complete lines, the same final
buffer, the same ordered decoded frames, and the same `ChatApp` run as
feeding the whole stream as a single chunk. -/
theorem feed_chunked_eq_whole (st : AppState) (chunks : List (List Char)) :
    feedMany [] chunks = feedStep [] chunks.flatten ∧
    decodedFrames (feedMany [] chunks).1 = decodedFrames (feedStep [] chunks.flatten).1 ∧
    runChunks st [] chunks = runChunks st [] [chunks.flatten] := by
  have hnil : '\n' ∉ ([] : List Char) := by simp
  have h := feedMany_eq_feedStep hnil chunks
  refine ⟨h, by rw [h], ?_⟩
  rw [runChunks_eq_processLines st hnil chunks,
    runChunks_eq_processLines st hnil [chunks.flatten], h,
    feedMany_eq_feedStep hnil [chunks.flatten]]
  simp

/-- Claim C3.  While a turn is active (`isStreaming` is `true`, which is
the case throughout the Thinking, StreamingText and Speaking phases of a
turn), `sendMessage` is a rejected no-op: the state — including
`currentMessage`, the rendered messages and the request count — is
returned unchanged. -/
theorem sendMessage_noop_while_streaming (st : AppState) (input : List Char)
    (resp : TurnResponse) (h : st.isStreaming = true) :
    sendMessage st input resp = st := by
  unfold sendMessage
  simp [h]

theorem sendMessage_noop_while_streaming_witness :
    streamingState.isStreaming = true ∧
      sendMessage streamingState "Hello".toList TurnResponse.httpError = streamingState :=
  ⟨rfl, sendMessage_noop_while_streaming streamingState "Hello".toList TurnResponse.httpError rfl⟩

/-- Claim C4.  The happy-path turn: frames `token("Hi")`,
`token(" there")`, `status(complete, latency=0.42)` produce the rendered
reply "Hi there", an avatar history thinking → streaming (per token) →
speaking → idle, exactly one `speak("Hi there", "en")` invocation, and
the recorded latency readout. -/
theorem turn_happy_path :
    (sendMessage initialAppState "Hello".toList (TurnResponse.stream [c4Chunk])).assistantContent
        = "Hi there".toList ∧
    (sendMessage initialAppState "Hello".toList (TurnResponse.stream [c4Chunk])).currentMessage
        = "Hi there".toList ∧
    (sendMessage initialAppState "Hello".toList (TurnResponse.stream [c4Chunk])).trace
        = [AvatarState.thinking, AvatarState.streaming, AvatarState.streaming,
           AvatarState.speaking, AvatarState.idle] ∧
    (sendMessage initialAppState "Hello".toList (TurnResponse.stream [c4Chunk])).avatar
        = AvatarState.idle ∧
    (sendMessage initialAppState "Hello".toList (TurnResponse.stream [c4Chunk])).speakCalls
        = [("Hi there".toList, "en".toList)] ∧
    (sendMessage initialAppState "Hello".toList (TurnResponse.stream [c4Chunk])).latencyDisplay
        = some "0.42s".toList ∧
    (sendMessage initialAppState "Hello".toList (TurnResponse.stream [c4Chunk])).isStreaming
        = false := by
  decide

/-- Claim C5.  A malformed record on a marker line mid-stream aborts the
turn: the already-appended token "Hi" is preserved (no rollback), the
avatar passes through `error` and ends at `idle` with `isStreaming`
false, the later well-formed line of the same stream is never processed,
and the next turn decodes from a fresh empty buffer (its frames arrive
intact). -/
theorem malformed_frame_aborts_turn :
    (jsonParse "\x7bmalformed".toList).isNone = true ∧
    c5FirstTurn.currentMessage = "Hi".toList ∧
    c5FirstTurn.assistantContent = "Hi".toList ∧
    c5FirstTurn.trace = [AvatarState.thinking, AvatarState.streaming,
      AvatarState.error, AvatarState.idle] ∧
    c5FirstTurn.avatar = AvatarState.idle ∧
    c5FirstTurn.isStreaming = false ∧
    c5FirstTurn.messages = [("Hello".toList, "user".toList),
      ("Error: Failed to send message. Please try again.".toList, "assistant".toList)] ∧
    c5SecondTurn.currentMessage = "Ok".toList ∧
    c5SecondTurn.speakCalls = [("Ok".toList, "en".toList)] ∧
    c5SecondTurn.avatar = AvatarState.idle := by
  decide

/-- Claim C6.  The trailing split element is retained as the pending
buffer, never parsed in the same iteration: complete lines plus pending
buffer reconstruct exactly the input, the pending buffer contains no
newline (so it is precisely the text after the last newline), a chunk
ending at a newline leaves an empty pending buffer, and an empty
complete line decodes to no frame (no `data: ` marker). -/
theorem trailing_line_is_buffered (buf chunk : List Char) :
    joinedLines (feedStep buf chunk).1 (feedStep buf chunk).2 = buf ++ chunk ∧
    (feedStep buf chunk).2.contains '\n' = false ∧
    (feedStep buf (chunk ++ ['\n'])).2 = [] ∧
    decodedFrames [[]] = [] := by
  refine ⟨joinedLines_splitLines (buf ++ chunk), ?_, ?_, rfl⟩
  · cases hcon : (feedStep buf chunk).2.contains '\n' with
    | false => rfl
    | true =>
      exact absurd (List.mem_of_elem_eq_true hcon)
        (feedStep_buffer_no_newline buf chunk)
  · show (splitLines (buf ++ (chunk ++ ['\n']))).getLastD [] = []
    rw [← List.append_assoc, splitLines_append]
    rw [getLastD_append_cons]
    simp [splitLines, List.getLastD_cons]

/-- Claim C7.  Calling `startRecording` while a recognition session is
active performs exactly one platform `stop` and no `start`: at most one
session ever exists. -/
theorem startRecording_while_active_stops (st : VoiceState)
    (hrec : st.recognitionPresent = true) (hact : st.isRecording = true) :
    startRecording st = (st, [RecEffect.stopSession]) := by
  unfold startRecording stopRecording
  simp [hrec, hact]

theorem startRecording_while_active_stops_witness :
    recordingState.recognitionPresent = true ∧ recordingState.isRecording = true ∧
      startRecording recordingState = (recordingState, [RecEffect.stopSession]) :=
  ⟨rfl, rfl, startRecording_while_active_stops recordingState rfl rfl⟩

/-- Claim C8.  `speak` with voice output disabled returns the state
unchanged with no platform call at all; when `getVoiceForLanguage`
returns `null` (voice list empty or not yet loaded) it returns the state
unchanged — no utterance is created, the current-utterance slot is not
modified — and performs at most the documented cancel of an utterance
already in progress, never a `speakStart`.  Both cases return normally
(the model is a total function: nothing throws). -/
theorem speak_noop_disabled_or_no_voice (st : VoiceState) (text : List Char)
    (language : Option (List Char)) :
    (st.voiceOutputEnabled = false → speak st text language = (st, [])) ∧
    (getVoiceForLanguage st (resolveLang st language) = none →
      (speak st text language).1 = st ∧
        (speak st text language).2.all (fun e => e = SynthEffect.cancel) = true) := by
  constructor
  · intro h
    unfold speak
    simp [h]
  · intro h
    unfold speak
    by_cases hd : (!st.voiceOutputEnabled || !st.synthesisPresent) = true
    · simp [hd]
    · simp only [hd, if_false, h]
      refine ⟨rfl, ?_⟩
      by_cases hu : st.currentUtterance.isSome <;> simp [hu]

theorem speak_noop_disabled_or_no_voice_witness :
    speak mutedVoiceState "Hi".toList none = (mutedVoiceState, []) ∧
      (speak mutedVoiceState "Hi".toList none).1 = mutedVoiceState ∧
      (speak mutedVoiceState "Hi".toList none).2.all
        (fun e => e = SynthEffect.cancel) = true :=
  ⟨(speak_noop_disabled_or_no_voice mutedVoiceState "Hi".toList none).1 rfl,
    (speak_noop_disabled_or_no_voice mutedVoiceState "Hi".toList none).2 rfl⟩

/-- Claim C9.  A submission whose text is empty or whitespace-only is a
complete no-op: `sendMessage` returns the state unchanged, so nothing is
rendered, no turn opens, the request count is unchanged and
`isStreaming` stays `false`. -/
theorem sendMessage_blank_input_noop (st : AppState) (input : List Char)
    (resp : TurnResponse) (h : jsTrim input = []) :
    sendMessage st input resp = st := by
  unfold sendMessage
  simp [h]

theorem sendMessage_blank_input_noop_witness :
    jsTrim "   ".toList = [] ∧
      sendMessage initialAppState "   ".toList (TurnResponse.stream [c4Chunk])
        = initialAppState :=
  ⟨by decide,
    sendMessage_blank_input_noop initialAppState "   ".toList
      (TurnResponse.stream [c4Chunk]) (by decide)⟩

/-- Claim C10.  On `status(complete)` with an empty accumulated reply,
`speak` is not invoked (the speak-call list is unchanged, so no utterance
is started), while the avatar still transitions to `speaking`, the
2-second idle reset is still scheduled, and the latency readout is still
recorded when metrics are present and untouched when they are absent. -/
theorem complete_with_empty_reply_no_speak (st : AppState) (metrics : Option (List Char))
    (h : st.currentMessage = []) :
    (handleStreamEvent st (completeFrame metrics)).speakCalls = st.speakCalls ∧
    (handleStreamEvent st (completeFrame metrics)).avatar = AvatarState.speaking ∧
    (handleStreamEvent st (completeFrame metrics)).pendingIdleTimers
        = st.pendingIdleTimers + 1 ∧
    (handleStreamEvent st (completeFrame metrics)).latencyDisplay
        = (match metrics with
           | some lex => some (lex ++ "s".toList)
           | none => st.latencyDisplay) := by
  cases metrics with
  | none =>
    have h1 : jGet (completeFrame none) "type".toList
        = some (JValue.str "status".toList) := rfl
    have h2 : jGet (completeFrame none) "state".toList
        = some (JValue.str "complete".toList) := rfl
    have h3 : jGet (completeFrame none) "metrics".toList = none := rfl
    simp only [handleStreamEvent, h1, h2, h3, jsTruthy, jsToString]
    simp +decide [setAvatarState, h]
  | some lex =>
    have h1 : jGet (completeFrame (some lex)) "type".toList
        = some (JValue.str "status".toList) := rfl
    have h2 : jGet (completeFrame (some lex)) "state".toList
        = some (JValue.str "complete".toList) := rfl
    have h3 : jGet (completeFrame (some lex)) "metrics".toList
        = some (JValue.obj [("latency".toList, JValue.num lex)]) := rfl
    have h4 : jsTruthy (some (JValue.obj [("latency".toList, JValue.num lex)]))
        = true := rfl
    have h5 : jGet (JValue.obj [("latency".toList, JValue.num lex)]) "latency".toList
        = some (JValue.num lex) := rfl
    simp only [handleStreamEvent, h1, h2, h3, h4, h5, Option.some_bind, jsToString]
    simp +decide [setAvatarState, h]

theorem complete_with_empty_reply_no_speak_witness :
    initialAppState.currentMessage = [] ∧
      ((handleStreamEvent initialAppState (completeFrame (some "0.42".toList))).speakCalls
          = initialAppState.speakCalls ∧
        (handleStreamEvent initialAppState (completeFrame (some "0.42".toList))).avatar
          = AvatarState.speaking ∧
        (handleStreamEvent initialAppState (completeFrame (some "0.42".toList))).pendingIdleTimers
          = initialAppState.pendingIdleTimers + 1 ∧
        (handleStreamEvent initialAppState (completeFrame (some "0.42".toList))).latencyDisplay
          = (match some "0.42".toList with
             | some lex => some (lex ++ "s".toList)
             | none => initialAppState.latencyDisplay)) :=
  ⟨rfl, complete_with_empty_reply_no_speak initialAppState (some "0.42".toList) rfl⟩

/-- No stream event ever touches the `isStreaming` flag: it is set to
`true` before the read loop and cleared only in the `finally` block, so
it is `true` in every state the loop passes to `handleStreamEvent`
(the Thinking, StreamingText and Speaking phases of a turn). -/
theorem handleStreamEvent_preserves_isStreaming (st : AppState) (ev : JValue) :
    (handleStreamEvent st ev).isStreaming = st.isStreaming := by
  unfold handleStreamEvent setAvatarState
  repeat' first | rfl | split | dsimp only

end ChatClient
